import Mathlib

/-
  Verification development for the rigelcore simulations core
  (rigel-ros/rigelcore).

  Shallow embedding of:
  - rigelcore/simulations/callback.py   (predicate compiler)
  - rigelcore/simulations/command.py    (command kinds and builders)
  - rigelcore/simulations/requirements/ (node runtime: simple, absence,
    response, prevention, existence, manager)
  - rigelcore/simulations/parser.py     (requirements tree construction)

  Python runtime errors (AttributeError, KeyError, TypeError,
  AssertionError, IndexError, generic Exception) are modelled with an
  explicit error type; fallible operations return Except.
-/

set_option maxHeartbeats 1000000

/-- Python runtime errors raised by the embedded code paths. -/
inductive PyErr where
  | typeError
  | keyError
  | attributeError
  | assertionError
  | indexError
  | unsupportedOperator
deriving DecidableEq

/-- Primitive values of a decoded ROS message: boolean, integer,
floating-point (modelled by an exact rational, which is faithful for the
comparison semantics at issue) or string. -/
inductive Value where
  | boolVal : Bool → Value
  | intVal : Int → Value
  | floatVal : ℚ → Value
  | strVal : String → Value
deriving DecidableEq

/-- Python's numeric tower for comparisons: bool and int and float are
mutually comparable by numeric value (True counts as 1, False as 0);
strings are not numeric. -/
def Value.toNum : Value → Option ℚ
  | .boolVal b => some (if b then 1 else 0)
  | .intVal n => some (n : ℚ)
  | .floatVal q => some q
  | .strVal _ => none

/-- Python `==` on primitive values: numeric values compare by value,
strings compare by content, any other mixture is unequal (no error). -/
def pyEqVal (a b : Value) : Bool :=
  match a.toNum, b.toNum with
  | some x, some y => decide (x = y)
  | _, _ =>
    match a, b with
    | .strVal s, .strVal t => s == t
    | _, _ => false

/-- True when Python can order the two values: both numeric, or both
strings.  Ordering any other mixture raises TypeError. -/
def pyComparable (a b : Value) : Bool :=
  (a.toNum.isSome && b.toNum.isSome) ||
    (match a, b with
     | .strVal _, .strVal _ => true
     | _, _ => false)

/-- Python `<` on primitive values. -/
def pyLtVal (a b : Value) : Except PyErr Bool :=
  match a.toNum, b.toNum with
  | some x, some y => .ok (decide (x < y))
  | _, _ =>
    match a, b with
    | .strVal s, .strVal t => .ok (decide (s < t))
    | _, _ => .error .typeError

/-- Python `<=` on primitive values. -/
def pyLeVal (a b : Value) : Except PyErr Bool :=
  match a.toNum, b.toNum with
  | some x, some y => .ok (decide (x ≤ y))
  | _, _ =>
    match a, b with
    | .strVal s, .strVal t => .ok (decide (s < t) || s == t)
    | _, _ => .error .typeError

/-- Python `>` on primitive values. -/
def pyGtVal (a b : Value) : Except PyErr Bool :=
  match a.toNum, b.toNum with
  | some x, some y => .ok (decide (y < x))
  | _, _ =>
    match a, b with
    | .strVal s, .strVal t => .ok (decide (t < s))
    | _, _ => .error .typeError

/-- Python `>=` on primitive values. -/
def pyGeVal (a b : Value) : Except PyErr Bool :=
  match a.toNum, b.toNum with
  | some x, some y => .ok (decide (y ≤ x))
  | _, _ =>
    match a, b with
    | .strVal s, .strVal t => .ok (decide (t < s) || s == t)
    | _, _ => .error .typeError

/-- A decoded ROS message: a mapping from field name to value
(`ROS_MESSAGE_TYPE = Dict[str, Any]`). -/
abbrev Msg : Type := List (String × Value)

/-- Dictionary lookup on a decoded message. -/
def msgFind (msg : Msg) (f : String) : Option Value :=
  match msg with
  | [] => none
  | kv :: rest => if kv.1 == f then some kv.2 else msgFind rest f

/-- The result of `CallbackGenerator.__extract_argument`
(`Union[float, int, str, ROSCallbackType]`): either a primitive Python
value (field names are plain strings, indistinguishable from string
literals) or a compiled callback. -/
inductive Arg where
  | py : Value → Arg
  | fn : (Msg → Except PyErr Bool) → Arg

/-- The type of compiled callbacks (`ROSCallbackType`). -/
def Callback : Type := Msg → Except PyErr Bool

/-- Python `msg[field]` where `field` is whatever argument was extracted:
decoded messages are keyed by strings, so subscripting with anything that
is not a present string key raises KeyError. -/
def msgSubscript (msg : Msg) (field : Arg) : Except PyErr Value :=
  match field with
  | .py (.strVal f) =>
    match msgFind msg f with
    | some v => .ok v
    | none => .error .keyError
  | _ => .error .keyError

/-- Python `w == value` where `value` is an extracted argument; a
function object is unequal to every primitive. -/
def pyEqArg (w : Value) (value : Arg) : Bool :=
  match value with
  | .py v => pyEqVal w v
  | .fn _ => false

/-- Python `w < value` with an extracted argument: ordering a primitive
against a function object raises TypeError. -/
def pyLtArg (w : Value) (value : Arg) : Except PyErr Bool :=
  match value with
  | .py v => pyLtVal w v
  | .fn _ => .error .typeError

/-- Python `w <= value` with an extracted argument. -/
def pyLeArg (w : Value) (value : Arg) : Except PyErr Bool :=
  match value with
  | .py v => pyLeVal w v
  | .fn _ => .error .typeError

/-- Python `w > value` with an extracted argument. -/
def pyGtArg (w : Value) (value : Arg) : Except PyErr Bool :=
  match value with
  | .py v => pyGtVal w v
  | .fn _ => .error .typeError

/-- Python `w >= value` with an extracted argument. -/
def pyGeArg (w : Value) (value : Arg) : Except PyErr Bool :=
  match value with
  | .py v => pyGeVal w v
  | .fn _ => .error .typeError

/-- Calling an extracted argument: only a compiled callback is callable,
calling a primitive raises TypeError. -/
def asCallable (a : Arg) : Except PyErr Callback :=
  match a with
  | .fn f => .ok f
  | .py _ => .error .typeError

/-- `CallbackGenerator.generate_callback_equal`:
`bool(msg[field] == value)`. -/
def generate_callback_equal (field value : Arg) : Callback :=
  fun msg => do
    let w ← msgSubscript msg field
    pure (pyEqArg w value)

/-- `CallbackGenerator.generate_callback_different`:
`bool(msg[field] != value)`. -/
def generate_callback_different (field value : Arg) : Callback :=
  fun msg => do
    let w ← msgSubscript msg field
    pure (!pyEqArg w value)

/-- `CallbackGenerator.generate_callback_lesser`:
`bool(msg[field] < value)`. -/
def generate_callback_lesser (field value : Arg) : Callback :=
  fun msg => do
    let w ← msgSubscript msg field
    pyLtArg w value

/-- `CallbackGenerator.generate_callback_lesser_than`:
`bool(msg[field] <= value)`. -/
def generate_callback_lesser_than (field value : Arg) : Callback :=
  fun msg => do
    let w ← msgSubscript msg field
    pyLeArg w value

/-- `CallbackGenerator.generate_callback_greater`:
`bool(msg[field] > value)`. -/
def generate_callback_greater (field value : Arg) : Callback :=
  fun msg => do
    let w ← msgSubscript msg field
    pyGtArg w value

/-- `CallbackGenerator.generate_callback_greater_than`:
`bool(msg[field] >= value)`. -/
def generate_callback_greater_than (field value : Arg) : Callback :=
  fun msg => do
    let w ← msgSubscript msg field
    pyGeArg w value

/-- `CallbackGenerator.generate_callback_iff`:
`if anterior(msg): return posterior(msg)` else `return False`. -/
def generate_callback_iff (anterior posterior : Arg) : Callback :=
  fun msg => do
    let af ← asCallable anterior
    let b ← af msg
    if b then do
      let pf ← asCallable posterior
      pf msg
    else
      pure false

/-- `CallbackGenerator.generate_callback_and`:
`return anterior(msg) and posterior(msg)` (short-circuit). -/
def generate_callback_and (anterior posterior : Arg) : Callback :=
  fun msg => do
    let af ← asCallable anterior
    let b ← af msg
    if b then do
      let pf ← asCallable posterior
      pf msg
    else
      pure false

/-- The HPL expression AST consumed by the compiler: a binary operator
(`HplBinaryOperator` with `op`, `operand1`, `operand2`), a field access
(`HplFieldAccess` exposing `field.value`) or a literal (`HplLiteral`,
already unwrapped to its primitive value as `__extract_argument` does). -/
inductive HplExpr where
  | binop : String → HplExpr → HplExpr → HplExpr
  | fieldAccess : String → HplExpr
  | literal : Value → HplExpr

/-- The operator dispatch of `CallbackGenerator.generate_callback`, on
already-extracted arguments.  Note the source compiles both the `iff`
and the `implies` tokens through `generate_callback_iff(arg2, arg1)` -
the same branch, with the argument order swapped. -/
def generate_callback_dispatch (op : String) (arg1 arg2 : Arg) :
    Except PyErr Callback :=
  if op == "=" then .ok (generate_callback_equal arg1 arg2)
  else if op == "!=" then .ok (generate_callback_different arg1 arg2)
  else if op == "<" then .ok (generate_callback_lesser arg1 arg2)
  else if op == "<=" then .ok (generate_callback_lesser_than arg1 arg2)
  else if op == ">" then .ok (generate_callback_greater arg1 arg2)
  else if op == ">=" then .ok (generate_callback_greater_than arg1 arg2)
  else if op == "iff" || op == "implies" then
    .ok (generate_callback_iff arg2 arg1)
  else if op == "and" then .ok (generate_callback_and arg1 arg2)
  else .error .unsupportedOperator

/-- `CallbackGenerator.__extract_argument`: a field access yields the
field-name string, a literal yields its primitive value, a nested binary
operator compiles recursively into a callback. -/
def extract_argument : HplExpr → Except PyErr Arg
  | .fieldAccess f => .ok (.py (.strVal f))
  | .literal v => .ok (.py v)
  | .binop op o1 o2 => do
    let a1 ← extract_argument o1
    let a2 ← extract_argument o2
    match generate_callback_dispatch op a1 a2 with
    | .ok f => .ok (.fn f)
    | .error e => .error e

/-- `CallbackGenerator.generate_callback`: reads `op`, `operand1`,
`operand2` off a binary-operator node (any other node kind lacks those
attributes) and dispatches. -/
def generate_callback : HplExpr → Except PyErr Callback
  | .binop op o1 o2 => do
    let a1 ← extract_argument o1
    let a2 ← extract_argument o2
    generate_callback_dispatch op a1 a2
  | .fieldAccess _ => .error .attributeError
  | .literal _ => .error .attributeError

/-- Compile an expression and run the resulting callback on a message. -/
def evalCompiled (e : HplExpr) (msg : Msg) : Except PyErr Bool :=
  match generate_callback e with
  | .ok cb => cb msg
  | .error e => .error e

/-
  rigelcore/simulations/command.py
-/

/-- `CommandType` as defined in command.py: exactly three enum members.
(There is no STOP_SIMULATION member.) -/
inductive CommandType where
  | rosbridgeConnect
  | rosbridgeDisconnect
  | statusChange
deriving DecidableEq

/-- The names of the members of the `CommandType` enum, verbatim from
command.py. -/
def command_type_members : List String :=
  ["ROSBRIDGE_CONNECT", "ROSBRIDGE_DISCONNECT", "STATUS_CHANGE"]

/-- The static methods of `CommandBuilder`, verbatim from command.py. -/
def command_builder_static_methods : List String :=
  ["build_rosbridge_connect_cmd", "build_rosbridge_disconnect_cmd",
   "build_status_change_cmd"]

/-- A `Command` exchanged between nodes: a type tag plus its data dict;
only the connect command carries data (the `client` entry, modelled by a
client identifier). -/
structure Command where
  type : CommandType
  client : Option Nat
deriving DecidableEq

/-- `CommandBuilder.build_rosbridge_connect_cmd`. -/
def build_rosbridge_connect_cmd (client : Nat) : Command :=
  ⟨.rosbridgeConnect, some client⟩

/-- `CommandBuilder.build_rosbridge_disconnect_cmd`. -/
def build_rosbridge_disconnect_cmd : Command :=
  ⟨.rosbridgeDisconnect, none⟩

/-- `CommandBuilder.build_status_change_cmd`. -/
def build_status_change_cmd : Command :=
  ⟨.statusChange, none⟩

/-
  Shared runtime-model infrastructure for the requirement nodes.

  A Python handler both mutates its node and performs side effects
  (sending commands, starting/cancelling timers).  Side effects are
  modelled as an emitted effect trace, in program order.
-/

/-- Side effects a node handler performs, in order. -/
inductive Effect where
  | sendChildDownstream : Nat → Command → Effect
  | sendDownstream : Command → Effect
  | sendUpstream : Command → Effect
  | timerStart : Effect
  | timerCancel : Effect
deriving DecidableEq

/-- A Python float timeout: either `math.inf` (the default) or a finite
value. -/
inductive PyTime where
  | inf
  | fin : ℚ → PyTime
deriving DecidableEq

/-- A node's read-only view of one of its children: the `satisfied`
flag every node carries, and the `listening` flag.

The `listening` flag is Modelled from the spec: response.py reads
`posterior.listening` but no file under src/ defines the attribute; the
spec declares it (data model: pattern/leaf nodes carry a `listening`
flag indicating whether the node is currently subscribed to the bridge,
toggled only by RosbridgeConnect / RosbridgeDisconnect). -/
structure ChildView where
  satisfied : Bool
  listening : Bool
deriving DecidableEq

/-
  rigelcore/simulations/requirements/simple.py
  (SimpleSimulationRequirementNode), together with the bridge-client
  registry it talks to.
-/

/-- The mutable state of a `SimpleSimulationRequirementNode`: its
constructor arguments, the `satisfied` flag (the inherited class default
from node.py is False) and the private `__rosbridge_client` reference,
unset until the first connect. -/
structure SimpleNodeState where
  ros_topic : String
  ros_message_type : String
  satisfied : Bool
  rosbridge_client : Option Nat
deriving DecidableEq

/-- `SimpleSimulationRequirementNode.__init__`. -/
def simple_node_init (topic msgType : String) : SimpleNodeState :=
  ⟨topic, msgType, false, none⟩

/-- Modelled from the spec: the `ROSBridgeClient` class is not under
src/ (only its callers are).  Per the consumed bridge interface, it
keeps a registry of active subscriptions; `register_message_handler`
adds a subscription for the `(topic, message_type, handler)` triple and
`remove_message_handler` removes the subscriptions registered for that
triple.  With a single leaf the handler reference is fixed, so an entry
is the pair `(topic, message_type)`. -/
structure BridgeClientState where
  registry : List (String × String)
deriving DecidableEq

/-- Modelled from the spec: `register_message_handler` adds the
subscription to the registry. -/
def register_message_handler (c : BridgeClientState) (topic msgType : String) :
    BridgeClientState :=
  ⟨c.registry ++ [(topic, msgType)]⟩

/-- Modelled from the spec: `remove_message_handler` removes the
subscriptions registered for the triple. -/
def remove_message_handler (c : BridgeClientState) (topic msgType : String) :
    BridgeClientState :=
  ⟨c.registry.filter (fun e => !(e.1 == topic && e.2 == msgType))⟩

/-- `SimpleSimulationRequirementNode.connect_to_rosbridge`: store the
client reference and register the message handler.  There is no
listening guard in the source: registration is unconditional. -/
def simple_connect_to_rosbridge (s : SimpleNodeState) (c : BridgeClientState)
    (client : Nat) : SimpleNodeState × BridgeClientState :=
  ({ s with rosbridge_client := some client },
   register_message_handler c s.ros_topic s.ros_message_type)

/-- `SimpleSimulationRequirementNode.disconnect_from_rosbridge`: uses
the stored `__rosbridge_client`; before any connect the attribute is
unset and the access raises AttributeError. -/
def simple_disconnect_from_rosbridge (s : SimpleNodeState)
    (c : BridgeClientState) :
    Except PyErr (SimpleNodeState × BridgeClientState) :=
  match s.rosbridge_client with
  | none => .error .attributeError
  | some _ => .ok (s, remove_message_handler c s.ros_topic s.ros_message_type)

/-- `SimpleSimulationRequirementNode.handle_downstream_command`. -/
def simple_handle_downstream_command (s : SimpleNodeState)
    (c : BridgeClientState) (cmd : Command) :
    Except PyErr (SimpleNodeState × BridgeClientState) :=
  if cmd.type = CommandType.rosbridgeConnect then
    match cmd.client with
    | some client => .ok (simple_connect_to_rosbridge s c client)
    | none => .error .keyError
  else if cmd.type = CommandType.rosbridgeDisconnect then
    simple_disconnect_from_rosbridge s c
  else .ok (s, c)

/-
  rigelcore/simulations/requirements/absence.py
  (AbsenceSimulationRequirementNode) coupled with one simple leaf child,
  the configuration the Absence pattern is built with.
-/

/-- Joint state of an Absence node and its single Simple leaf child:
just the two `satisfied` flags (the leaf starts unsatisfied, the
absence node's constructor sets `satisfied = True`). -/
structure AbsenceLeafWorld where
  child_satisfied : Bool
  absence_satisfied : Bool
deriving DecidableEq

/-- `AbsenceSimulationRequirementNode.handle_children_status_change`:
recompute `assess_children_nodes` (true iff no child is satisfied; with
the single leaf child this is the negation of the leaf's flag) and flip
`satisfied` on a change, informing the father (the status-change
command sent upstream goes to `father = None` here, a no-op). -/
def absence_handle_children_status_change (w : AbsenceLeafWorld) :
    AbsenceLeafWorld :=
  if (!w.child_satisfied) ≠ w.absence_satisfied then
    { w with absence_satisfied := !w.absence_satisfied }
  else w

/-- `SimpleSimulationRequirementNode.message_handler` for the leaf,
with the resulting STATUS_CHANGE delivered upstream to the Absence
node's handler on the same call stack: if the predicate value differs
from the current flag, flip it and propagate. -/
def absence_leaf_message_step (cb : Msg → Bool) (w : AbsenceLeafWorld)
    (m : Msg) : AbsenceLeafWorld :=
  if cb m ≠ w.child_satisfied then
    absence_handle_children_status_change
      { w with child_satisfied := !w.child_satisfied }
  else w

/-- Deliver a stream of ROS messages to the leaf.  Initial state: the
leaf's `satisfied` defaults to False (node.py), the absence node's
constructor sets `satisfied = True`. -/
def absence_run (cb : Msg → Bool) (msgs : List Msg) : AbsenceLeafWorld :=
  msgs.foldl (absence_leaf_message_step cb) ⟨false, true⟩

/-
  rigelcore/simulations/requirements/response.py
  (ResponseSimulationRequirementNode).
-/

/-- The mutable state of a `ResponseSimulationRequirementNode`: the
views of its children (index 0 = anterior, index 1 = posterior), the
`satisfied` flag (inherited class default False), the timeout, and the
private `__connect_command`, unset until the first connect. -/
structure ResponseState where
  children : List ChildView
  satisfied : Bool
  timeout : PyTime
  connect_command : Option Command
deriving DecidableEq

/-- `ResponseSimulationRequirementNode.__init__`: no children, no
father, the given timeout, an unarmed timer; `satisfied` is not
assigned, so it is the inherited class default `False` (node.py). -/
def response_init (timeout : PyTime) : ResponseState :=
  ⟨[], false, timeout, none⟩

/-- `ResponseSimulationRequirementNode.assess_children_nodes`:
`anterior.satisfied and posterior.satisfied`; reading `children[0]` or
`children[1]` of a shorter list raises IndexError. -/
def response_assess_children_nodes (s : ResponseState) : Except PyErr Bool :=
  match s.children with
  | a :: p :: _ => .ok (a.satisfied && p.satisfied)
  | _ => .error .indexError

/-- `ResponseSimulationRequirementNode.handle_rosbridge_connection_commands`:
save the command in `__connect_command`, send it to the anterior child
only (`send_child_downstream_cmd` is Modelled from the spec: it is
called by response.py but defined nowhere under src/; per the staged
connect protocol it delivers a downstream command to a single designated
child, modelled as an effect naming the child index), then start the
timer when the timeout is finite. -/
def response_handle_rosbridge_connection_commands (s : ResponseState)
    (cmd : Command) : Except PyErr (ResponseState × List Effect) :=
  match s.children with
  | [] => .error .indexError
  | _ :: _ =>
    .ok ({ s with connect_command := some cmd },
         [.sendChildDownstream 0 cmd] ++
           (if s.timeout = PyTime.inf then [] else [.timerStart]))

/-- `ResponseSimulationRequirementNode.handle_children_status_change`:
when the posterior child is not yet listening, forward the saved
connect command to it (reading the unset `__connect_command` raises
AttributeError); otherwise recompute `satisfied` and, on a satisfying
value, cancel the timer, issue a downstream disconnect and an upstream
status change. -/
def response_handle_children_status_change (s : ResponseState) :
    Except PyErr (ResponseState × List Effect) :=
  match s.children with
  | _ :: p :: _ =>
    if p.listening = false then
      match s.connect_command with
      | some c => .ok (s, [.sendChildDownstream 1 c])
      | none => .error .attributeError
    else
      match response_assess_children_nodes s with
      | .error e => .error e
      | .ok sat =>
        if sat then
          .ok ({ s with satisfied := sat },
               [.timerCancel, .sendDownstream build_rosbridge_disconnect_cmd,
                .sendUpstream build_status_change_cmd])
        else .ok ({ s with satisfied := sat }, [])
  | _ => .error .indexError

/-
  rigelcore/simulations/requirements/prevention.py
  (PreventionSimulationRequirementNode).
-/

/-- The mutable state of a `PreventionSimulationRequirementNode`. -/
structure PreventionState where
  children : List ChildView
  satisfied : Bool
  timeout : PyTime
deriving DecidableEq

/-- `PreventionSimulationRequirementNode.assess_children_nodes`: assert
exactly two children; when both anterior and posterior are satisfied the
code attempts `CommandBuilder.build_stop_simulation_cmd()` - an
attribute absent from `CommandBuilder` in command.py, so the lookup
raises AttributeError before anything is sent; otherwise return False. -/
def prevention_assess_children_nodes (s : PreventionState) :
    Except PyErr Bool :=
  match s.children with
  | [a, p] =>
    if a.satisfied && p.satisfied then .error .attributeError
    else .ok false
  | _ => .error .assertionError

/-- `PreventionSimulationRequirementNode.handle_children_status_change`:
on a change of the assessment against `satisfied`, flip the flag, cancel
the timer, issue a downstream disconnect and an upstream status
change. -/
def prevention_handle_children_status_change (s : PreventionState) :
    Except PyErr (PreventionState × List Effect) :=
  match prevention_assess_children_nodes s with
  | .error e => .error e
  | .ok b =>
    if b ≠ s.satisfied then
      .ok ({ s with satisfied := !s.satisfied },
           [.timerCancel, .sendDownstream build_rosbridge_disconnect_cmd,
            .sendUpstream build_status_change_cmd])
    else .ok (s, [])

/-
  rigelcore/simulations/requirements/existence.py
  (ExistenceSimulationRequirementNode).
-/

/-- The mutable state of an `ExistenceSimulationRequirementNode`. -/
structure ExistenceState where
  children : List ChildView
  satisfied : Bool
  timeout : PyTime
deriving DecidableEq

/-- The attributes of `ExistenceSimulationRequirementNode` instances:
the methods defined by the class plus those inherited from
`SimulationRequirementNode` (node.py).  There is no `handle_timeout`
attribute - the timeout handler the class defines is named
`handler_timeout`. -/
def existence_class_methods : List String :=
  ["assess_children_nodes", "handle_children_status_change",
   "handler_timeout", "handle_rosbridge_connection_commands",
   "handle_upstream_command", "handle_downstream_command",
   "send_upstream_cmd", "send_downstream_cmd"]

/-- `ExistenceSimulationRequirementNode.handle_rosbridge_connection_commands`:
forward the connect command downstream; then, when the timeout is
finite, build `threading.Timer(self.__timeout, self.handle_timeout)` -
the attribute lookup `self.handle_timeout` raises AttributeError (the
class defines `handler_timeout`), after the downstream send has already
happened.  The effect trace is returned alongside the outcome. -/
def existence_handle_rosbridge_connection_commands (s : ExistenceState)
    (cmd : Command) : List Effect × Except PyErr ExistenceState :=
  if s.timeout = PyTime.inf then ([.sendDownstream cmd], .ok s)
  else ([.sendDownstream cmd], .error .attributeError)

/-- `ExistenceSimulationRequirementNode.handler_timeout`: send a
downstream disconnect; the unsatisfied branch is a bare
`pass` (a TODO in the source), so nothing is sent upstream. -/
def existence_handler_timeout (s : ExistenceState) :
    ExistenceState × List Effect :=
  (s, [.sendDownstream build_rosbridge_disconnect_cmd])

/-
  rigelcore/simulations/requirements/manager.py
  (SimulationRequirementsManager).
-/

/-- The mutable state of a `SimulationRequirementsManager`: children
views, the `satisfied` flag (inherited class default False), the
`finished` flag, and the two timers. -/
structure ManagerState where
  children : List ChildView
  satisfied : Bool
  finished : Bool
  start_timer_alive : Bool
  stop_timer_alive : Bool
deriving DecidableEq

/-- `SimulationRequirementsManager.__init__`. -/
def manager_init : ManagerState :=
  ⟨[], false, false, true, true⟩

/-- `SimulationRequirementsManager.assess_children_nodes`: all children
satisfied, except that a manager without children is never satisfied. -/
def manager_assess_children_nodes (s : ManagerState) : Bool :=
  if s.children.isEmpty then false
  else s.children.all (fun c => c.satisfied)

/-- `SimulationRequirementsManager.stop_simulation`: broadcast a
downstream disconnect and set `finished = True`. -/
def manager_stop_simulation (s : ManagerState) : ManagerState × List Effect :=
  ({ s with finished := true },
   [.sendDownstream build_rosbridge_disconnect_cmd])

/-- `SimulationRequirementsManager.handle_children_status_change`: on a
change of the assessment, flip `satisfied`; on a true transition cancel
both timers and stop the simulation. -/
def manager_handle_children_status_change (s : ManagerState) :
    ManagerState × List Effect :=
  if manager_assess_children_nodes s ≠ s.satisfied then
    let s1 := { s with satisfied := !s.satisfied }
    if s1.satisfied then
      let s2 := { s1 with start_timer_alive := false,
                          stop_timer_alive := false }
      let r := manager_stop_simulation s2
      (r.1, [.timerCancel, .timerCancel] ++ r.2)
    else (s1, [])
  else (s, [])

/-- `SimulationRequirementsManager.handle_upstream_command`: a
STATUS_CHANGE command is dispatched to its handler; for any other
command type the `elif` compares against `CommandType.STOP_SIMULATON`,
an attribute absent from the `CommandType` enum in command.py, so the
lookup raises AttributeError. -/
def manager_handle_upstream_command (s : ManagerState) (c : Command) :
    Except PyErr (ManagerState × List Effect) :=
  if c.type = CommandType.statusChange then
    .ok (manager_handle_children_status_change s)
  else .error .attributeError

/-
  rigelcore/simulations/parser.py (SimulationRequirementsVisitor).

  The visitor allocates node objects and mutates their `father` and
  `children` attributes.  The object graph is modelled as an arena: a
  list of nodes addressed by allocation index; allocating an object
  appends it, attribute mutation rewrites the node at its index.
-/

/-- An HPL event: a simple event (exposing `topic.value` and
`msg_type.value`; the compiled predicate is irrelevant to the tree
shape) or a disjunction of two events. -/
inductive HplEvent where
  | simple : String → String → HplEvent
  | disj : HplEvent → HplEvent → HplEvent

/-- The discriminant of an `HplPattern` node
(`is_existence | is_absence | is_response | is_requirement |
is_prevention`). -/
inductive PatternKind where
  | existence
  | absence
  | response
  | requirement
  | prevention
deriving DecidableEq

/-- An `HplPattern` AST node: its discriminant and its event children
(`node.children()`). -/
structure HplPattern where
  kind : PatternKind
  events : List HplEvent

/-- The class of an allocated requirement node. -/
inductive NodeKind where
  | simpleNode
  | disjointNode
  | patternNode : PatternKind → NodeKind
deriving DecidableEq

/-- One allocated requirement-node object: its class and its mutable
`father` and `children` attributes, as allocation indices. -/
structure PNode where
  kind : NodeKind
  father : Option Nat
  children : List Nat
deriving DecidableEq

/-- The object arena: nodes in allocation order. -/
abbrev Arena : Type := List PNode

/-- Rewrite the node at an index (attribute mutation). -/
def modifyAt : Arena → Nat → (PNode → PNode) → Arena
  | [], _, _ => []
  | n :: rest, 0, f => f n :: rest
  | n :: rest, i + 1, f => n :: modifyAt rest i f

/-- `child.father = parent`. -/
def set_father (a : Arena) (child parent : Nat) : Arena :=
  modifyAt a child (fun n => { n with father := some parent })

/-- `parent.children.append(child)`. -/
def append_child (a : Arena) (parent child : Nat) : Arena :=
  modifyAt a parent (fun n => { n with children := n.children ++ [child] })

/-- Read a node (out-of-range reads never occur in the proofs below; a
default node keeps the function total). -/
def nodeAt (a : Arena) (i : Nat) : PNode :=
  a.getD i ⟨.simpleNode, none, []⟩

/-- `SimulationRequirementsVisitor.extract_requirement_node`: a simple
event allocates a Simple leaf;
`__initialize_disjunction_requirement_event` allocates a Disjoint node,
then recursively extracts `event1`, appends it to the children and sets
its father, then the same for `event2`.  Returns the grown arena and
the index of the subtree root. -/
def extract_requirement_node : Arena → HplEvent → Arena × Nat
  | a, .simple _topic _msgType => (a ++ [⟨.simpleNode, none, []⟩], a.length)
  | a, .disj e1 e2 =>
    let d := a.length
    let a0 := a ++ [⟨.disjointNode, none, []⟩]
    let r1 := extract_requirement_node a0 e1
    let b1 := set_father (append_child r1.1 d r1.2) r1.2 d
    let r2 := extract_requirement_node b1 e2
    let b2 := set_father (append_child r2.1 d r2.2) r2.2 d
    (b2, d)

/-- The child-linking loop of
`SimulationRequirementsVisitor.visit_hpl_pattern`: for each event,
extract a requirement node, set its father to the pattern node and
append it to the pattern node's children. -/
def link_pattern_children : Arena → Nat → List HplEvent → Arena
  | a, _, [] => a
  | a, p, e :: es =>
    let r := extract_requirement_node a e
    let b := append_child (set_father r.1 r.2 p) p r.2
    link_pattern_children b p es

/-- `SimulationRequirementsVisitor.visit_hpl_pattern`: allocate the
pattern node matching the discriminant, then link the extracted child
subtrees.  Each visited pattern builds its own object graph, so the
arena starts with just the pattern node. -/
def visit_hpl_pattern (pat : HplPattern) : Arena :=
  link_pattern_children [⟨.patternNode pat.kind, none, []⟩] 0 pat.events

/-- Number of occurrences of `j` across all `children` lists of the
arena. -/
def child_occs (a : Arena) (j : Nat) : Nat :=
  ∑ i ∈ Finset.range a.length, (nodeAt a i).children.count j

/-- Well-formedness of an arena: every child edge is in range and goes
from a lower to a strictly higher allocation index (so the parent/child
relation is acyclic - allocation order is a topological order), every
node with a `father` back-reference is listed exactly once among that
father's children and nowhere else in the arena, and a node without a
father appears in no children list. -/
def WFArena (a : Arena) : Prop :=
  ∀ j, j < a.length →
    ((∀ c ∈ (nodeAt a j).children, j < c ∧ c < a.length) ∧
     (match (nodeAt a j).father with
      | none => child_occs a j = 0
      | some p => p < a.length ∧ (nodeAt a p).children.count j = 1 ∧
          child_occs a j = 1))

/-- What one call of `extract_requirement_node` guarantees, relating the
arena `a` it started from to the grown arena `a'` and returned root
index `r`: the root is the first new index, pre-existing nodes are
untouched, the returned root is not yet linked anywhere, every other
new node is linked to exactly one new father, new child edges point
upward in allocation order and stay inside the new region, and each new
non-root index occurs exactly once in all children lists combined. -/
structure ExtractOk (a a' : Arena) (r : Nat) : Prop where
  root_eq : r = a.length
  len_lt : a.length < a'.length
  old_nodes : ∀ i, i < a.length → nodeAt a' i = nodeAt a i
  root_father : (nodeAt a' r).father = none
  new_father : ∀ j, a.length ≤ j → j < a'.length → j ≠ r →
      ∃ p, (nodeAt a' j).father = some p ∧ a.length ≤ p ∧ p < a'.length ∧
        (nodeAt a' p).children.count j = 1
  new_edges : ∀ i, a.length ≤ i → i < a'.length →
      ∀ c ∈ (nodeAt a' i).children, i < c ∧ c < a'.length
  occs : ∀ j, child_occs a' j
      = child_occs a j +
        (if a.length ≤ j ∧ j < a'.length ∧ j ≠ r then 1 else 0)

/-- Decidable equality of embedded outcomes, so concrete runs can be
settled by `decide`. -/
instance {ε α : Type} [DecidableEq ε] [DecidableEq α] :
    DecidableEq (Except ε α) := fun a b =>
  match a, b with
  | .ok x, .ok y =>
    if h : x = y then .isTrue (by rw [h]) else .isFalse (by simp [h])
  | .error x, .error y =>
    if h : x = y then .isTrue (by rw [h]) else .isFalse (by simp [h])
  | .ok _, .error _ => .isFalse (by simp)
  | .error _, .ok _ => .isFalse (by simp)

/-- The concrete leaf predicate `x = 1` used in the Absence scenario:
the compiled comparison on a message that carries the field (never
raising, as in the scenario's message stream). -/
def cb_x_equals_one : Msg → Bool := fun m =>
  match msgFind m "x" with
  | some v => pyEqVal v (.intVal 1)
  | none => false

/-
  Theorems.
-/

/-- Ordered Python comparisons succeed exactly on comparable values:
on an incomparable pair all four raise TypeError, on a comparable pair
all four return a boolean. -/
theorem py_ord_comparable_dichotomy (w v : Value) :
    (pyComparable w v = false →
      pyLtVal w v = .error .typeError ∧ pyLeVal w v = .error .typeError ∧
      pyGtVal w v = .error .typeError ∧ pyGeVal w v = .error .typeError) ∧
    (pyComparable w v = true →
      (∃ b, pyLtVal w v = .ok b) ∧ (∃ b, pyLeVal w v = .ok b) ∧
      (∃ b, pyGtVal w v = .ok b) ∧ (∃ b, pyGeVal w v = .ok b)) := by
  cases w <;> cases v <;>
    simp [pyComparable, pyLtVal, pyLeVal, pyGtVal, pyGeVal, Value.toNum]

/-- C1 (code_bug): the spec claims `StopSimulation` is one of four
command kinds and that the Manager handles it by setting
`finished = true`.  In command.py the `CommandType` enum has exactly
three members - neither a `STOP_SIMULATION` member nor the misspelt
`STOP_SIMULATON` the manager dispatch reads exists, and `CommandBuilder`
has no `build_stop_simulation_cmd` - so a descendant cannot even build
the command, and the manager's `handle_upstream_command` raises
AttributeError on every upstream command that is not a STATUS_CHANGE
(the `elif` evaluates the missing enum attribute). -/
theorem C1_stop_simulation_machinery_missing :
    command_type_members.length = 3 ∧
    "STOP_SIMULATION" ∉ command_type_members ∧
    "STOP_SIMULATON" ∉ command_type_members ∧
    "build_stop_simulation_cmd" ∉ command_builder_static_methods ∧
    manager_handle_upstream_command manager_init build_rosbridge_disconnect_cmd
      = .error .attributeError :=
  ⟨rfl, by decide, by decide, by decide, by decide⟩

/-- C2 (confirmed, spec-modelled `listening` and
`send_child_downstream_cmd`): a Response node handling RosbridgeConnect
saves the command and forwards it to the anterior child (index 0) only -
the posterior receives nothing - and a later StatusChange handled while
the posterior child's `listening` flag is false forwards the saved
connect command to the posterior child (index 1). -/
theorem C2_response_staged_connect (a p : ChildView) (sat ps : Bool)
    (tmo : PyTime) (cmd saved : Command) :
    (response_handle_rosbridge_connection_commands ⟨[a, p], sat, tmo, none⟩ cmd
      = .ok (⟨[a, p], sat, tmo, some cmd⟩,
             [.sendChildDownstream 0 cmd] ++
               (if tmo = PyTime.inf then [] else [.timerStart]))) ∧
    (response_handle_children_status_change
        ⟨[a, ⟨ps, false⟩], sat, tmo, some saved⟩
      = .ok (⟨[a, ⟨ps, false⟩], sat, tmo, some saved⟩,
             [.sendChildDownstream 1 saved])) := by
  constructor
  · simp [response_handle_rosbridge_connection_commands]
  · simp [response_handle_children_status_change]

/-- C3 (code_bug): the compiler maps the `implies` operator to the same
branch as `iff`, with arguments swapped - `implies(a, b)` compiles to
`if b(m) then a(m) else false`.  On the message with `x = 0` and
`y = 0` and sub-predicates `a = (x = 1)`, `b = (y = 2)`, both
sub-predicates are false, so `(not a(m)) or b(m)` is true, yet the
compiled predicate returns false. -/
theorem C3_implies_compiled_as_swapped_iff :
    evalCompiled
        (.binop "implies" (.binop "=" (.fieldAccess "x") (.literal (.intVal 1)))
          (.binop "=" (.fieldAccess "y") (.literal (.intVal 2))))
        [("x", .intVal 0), ("y", .intVal 0)] = .ok false ∧
    evalCompiled (.binop "=" (.fieldAccess "x") (.literal (.intVal 1)))
        [("x", .intVal 0), ("y", .intVal 0)] = .ok false ∧
    evalCompiled (.binop "=" (.fieldAccess "y") (.literal (.intVal 2)))
        [("x", .intVal 0), ("y", .intVal 0)] = .ok false ∧
    ((!false) || false) = true :=
  ⟨by decide, by decide, by decide, rfl⟩

/-- C4 counterexample: the Absence node's `satisfied` flag is not
monotone.  With the single leaf predicate `x = 1`, after the message
`x: 1` the flag is false, but after the further message `x: 0` the leaf
becomes unsatisfied again and the absence flag returns to true. -/
theorem C4_counterexample_absence_returns_to_true :
    (absence_run cb_x_equals_one [[("x", .intVal 1)]]).absence_satisfied
        = false ∧
    (absence_run cb_x_equals_one
        [[("x", .intVal 1)], [("x", .intVal 0)]]).absence_satisfied = true := by
  constructor
  · decide
  · decide

/-- A message step preserves the coupling between the Absence node's
flag and its leaf child's flag. -/
theorem absence_step_preserves_coupling (cb : Msg → Bool)
    (w : AbsenceLeafWorld) (m : Msg)
    (h : w.absence_satisfied = !w.child_satisfied) :
    (absence_leaf_message_step cb w m).absence_satisfied
      = !(absence_leaf_message_step cb w m).child_satisfied := by
  rcases w with ⟨cs, as⟩
  simp only at h
  subst h
  cases hcb : cb m <;> cases cs <;>
    simp [absence_leaf_message_step, absence_handle_children_status_change,
      hcb]

/-- Folding any message stream preserves the coupling. -/
theorem absence_foldl_coupling (cb : Msg → Bool) :
    ∀ (msgs : List Msg) (w : AbsenceLeafWorld),
      w.absence_satisfied = !w.child_satisfied →
      (msgs.foldl (absence_leaf_message_step cb) w).absence_satisfied
        = !(msgs.foldl (absence_leaf_message_step cb) w).child_satisfied := by
  intro msgs
  induction msgs with
  | nil => intro w h; exact h
  | cons m ms ih =>
    intro w h
    exact ih _ (absence_step_preserves_coupling cb w m h)

/-- C4 amended: the Absence node's `satisfied` flag tracks its child
rather than latching - after every handled message it equals the
negation of the leaf's `satisfied` flag, so it becomes false when the
child becomes satisfied and returns to true if the child later becomes
unsatisfied. -/
theorem C4_absence_tracks_child_negation (cb : Msg → Bool)
    (msgs : List Msg) :
    (absence_run cb msgs).absence_satisfied
      = !(absence_run cb msgs).child_satisfied :=
  absence_foldl_coupling cb msgs ⟨false, true⟩ rfl

/-- C5 counterexample: a freshly constructed Response node does not
have `satisfied = true`. -/
theorem C5_counterexample_fresh_response_unsatisfied :
    ¬ ((response_init PyTime.inf).satisfied = true) := by
  decide

/-- C5 amended: a freshly constructed Response node has
`satisfied = false` - the constructor does not assign the flag, so it
is the inherited class default from node.py. -/
theorem C5_fresh_response_satisfied_false (t : PyTime) :
    (response_init t).satisfied = false :=
  rfl

/-- C6 counterexample: handling the same RosbridgeConnect twice in a
row does not leave exactly one active subscription - the source leaf
has no listening guard, so the second connect registers the triple
again and the registry holds two entries. -/
theorem C6_counterexample_connect_twice_double_registration :
    simple_handle_downstream_command (simple_node_init "t" "T") ⟨[]⟩
        (build_rosbridge_connect_cmd 7)
      = .ok (⟨"t", "T", false, some 7⟩, ⟨[("t", "T")]⟩) ∧
    simple_handle_downstream_command ⟨"t", "T", false, some 7⟩ ⟨[("t", "T")]⟩
        (build_rosbridge_connect_cmd 7)
      = .ok (⟨"t", "T", false, some 7⟩, ⟨[("t", "T"), ("t", "T")]⟩) ∧
    ([("t", "T"), ("t", "T")] : List (String × String)).length ≠ 1 := by
  refine ⟨by decide, by decide, by decide⟩

/-- C6 amended: the Simple leaf registers unconditionally on every
RosbridgeConnect (there is no listening flag in the source), so two
consecutive connects append the triple twice; RosbridgeDisconnect
removes the handler's subscriptions, and a second consecutive
disconnect leaves the registry unchanged (disconnect, unlike connect,
is idempotent). -/
theorem C6_connect_registers_twice_disconnect_idempotent
    (topic msgType : String) (client : Nat) (c : BridgeClientState)
    (r : BridgeClientState) :
    (simple_handle_downstream_command (simple_node_init topic msgType) c
        (build_rosbridge_connect_cmd client)
      = .ok (⟨topic, msgType, false, some client⟩,
             ⟨c.registry ++ [(topic, msgType)]⟩)) ∧
    (simple_handle_downstream_command ⟨topic, msgType, false, some client⟩
        ⟨c.registry ++ [(topic, msgType)]⟩ (build_rosbridge_connect_cmd client)
      = .ok (⟨topic, msgType, false, some client⟩,
             ⟨c.registry ++ [(topic, msgType)] ++ [(topic, msgType)]⟩)) ∧
    (simple_handle_downstream_command ⟨topic, msgType, false, some client⟩ r
        build_rosbridge_disconnect_cmd
      = .ok (⟨topic, msgType, false, some client⟩,
             remove_message_handler r topic msgType)) ∧
    (remove_message_handler (remove_message_handler r topic msgType) topic
        msgType = remove_message_handler r topic msgType) := by
  refine ⟨?_, ?_, ?_, ?_⟩
  · simp [simple_handle_downstream_command, simple_node_init,
      simple_connect_to_rosbridge, register_message_handler,
      build_rosbridge_connect_cmd]
  · simp [simple_handle_downstream_command, simple_connect_to_rosbridge,
      register_message_handler, build_rosbridge_connect_cmd]
  · simp [simple_handle_downstream_command, simple_disconnect_from_rosbridge,
      build_rosbridge_disconnect_cmd]
  · simp [remove_message_handler, List.filter_filter]

/-- C7 (code_bug): an Existence node with a finite timeout cannot arm
its deadline - handling RosbridgeConnect forwards the command
downstream and then raises AttributeError because the timer is built
over the missing attribute `handle_timeout` (the class defines
`handler_timeout`); and the defined `handler_timeout`, run on a node
that is still unsatisfied, emits only the downstream disconnect -
nothing is sent upstream (the unsatisfied branch is a TODO `pass`, and
no StopSimulation builder exists). -/
theorem C7_existence_timeout_machinery_broken :
    existence_handle_rosbridge_connection_commands
        ⟨[⟨false, false⟩], false, .fin 5⟩ (build_rosbridge_connect_cmd 1)
      = ([.sendDownstream (build_rosbridge_connect_cmd 1)],
         .error .attributeError) ∧
    "handle_timeout" ∉ existence_class_methods ∧
    existence_handler_timeout ⟨[⟨false, false⟩], false, .fin 5⟩
      = (⟨[⟨false, false⟩], false, .fin 5⟩,
         [.sendDownstream build_rosbridge_disconnect_cmd]) :=
  ⟨by decide, by decide, by decide⟩

/-- C8 counterexample: the compiled `<` predicate is not total in the
claimed sense - applied to a message whose field `x` holds the string
value `"a"` while the constant is the integer 1, it raises TypeError
instead of returning false. -/
theorem C8_counterexample_lesser_incompatible_raises :
    generate_callback_lesser (.py (.strVal "x")) (.py (.intVal 1))
        [("x", .strVal "a")] = .error .typeError ∧
    generate_callback_lesser (.py (.strVal "x")) (.py (.intVal 1))
        [("x", .strVal "a")] ≠ .ok false := by
  refine ⟨by decide, by decide⟩

/-- C8 amended: on a message that carries the named field, the compiled
`=` and `≠` predicates are total - across incompatible types they
return false resp. true without failing - while the four ordered
comparisons return a boolean exactly when the field value and the
constant are comparable (both numeric or both strings) and raise
TypeError otherwise. -/
theorem C8_comparison_predicate_totality (f : String) (v w : Value)
    (msg : Msg) (hsub : msgSubscript msg (.py (.strVal f)) = .ok w) :
    (generate_callback_equal (.py (.strVal f)) (.py v) msg
      = .ok (pyEqVal w v)) ∧
    (generate_callback_different (.py (.strVal f)) (.py v) msg
      = .ok (!pyEqVal w v)) ∧
    (pyComparable w v = false →
      generate_callback_lesser (.py (.strVal f)) (.py v) msg
          = .error .typeError ∧
      generate_callback_lesser_than (.py (.strVal f)) (.py v) msg
          = .error .typeError ∧
      generate_callback_greater (.py (.strVal f)) (.py v) msg
          = .error .typeError ∧
      generate_callback_greater_than (.py (.strVal f)) (.py v) msg
          = .error .typeError) ∧
    (pyComparable w v = true →
      (∃ b, generate_callback_lesser (.py (.strVal f)) (.py v) msg = .ok b) ∧
      (∃ b, generate_callback_lesser_than (.py (.strVal f)) (.py v) msg
          = .ok b) ∧
      (∃ b, generate_callback_greater (.py (.strVal f)) (.py v) msg
          = .ok b) ∧
      (∃ b, generate_callback_greater_than (.py (.strVal f)) (.py v) msg
          = .ok b)) := by
  have hd := py_ord_comparable_dichotomy w v
  refine ⟨?_, ?_, ?_, ?_⟩
  · simp [generate_callback_equal, hsub, pyEqArg]
  · simp [generate_callback_different, hsub, pyEqArg]
  · intro hc
    have h4 := hd.1 hc
    simp [generate_callback_lesser, generate_callback_lesser_than,
      generate_callback_greater, generate_callback_greater_than, hsub,
      Bind.bind, Except.bind, pyLtArg, pyLeArg, pyGtArg, pyGeArg,
      h4.1, h4.2.1, h4.2.2.1, h4.2.2.2]
  · intro hc
    have h4 := hd.2 hc
    obtain ⟨⟨b1, hb1⟩, ⟨b2, hb2⟩, ⟨b3, hb3⟩, ⟨b4, hb4⟩⟩ := h4
    refine ⟨⟨b1, ?_⟩, ⟨b2, ?_⟩, ⟨b3, ?_⟩, ⟨b4, ?_⟩⟩ <;>
      simp [generate_callback_lesser, generate_callback_lesser_than,
        generate_callback_greater, generate_callback_greater_than, hsub,
        Bind.bind, Except.bind, pyLtArg, pyLeArg, pyGtArg, pyGeArg,
        hb1, hb2, hb3, hb4]

/-- C8 witness: the amended totality theorem instantiated at the
concrete message with field `x` holding the string `"a"` against the
integer constant 1. -/
theorem C8_comparison_predicate_totality_witness :
    msgSubscript [("x", Value.strVal "a")] (.py (.strVal "x"))
        = .ok (Value.strVal "a") ∧
    ((generate_callback_equal (.py (.strVal "x")) (.py (.intVal 1))
        [("x", Value.strVal "a")] = .ok (pyEqVal (.strVal "a") (.intVal 1))) ∧
     (generate_callback_different (.py (.strVal "x")) (.py (.intVal 1))
        [("x", Value.strVal "a")]
          = .ok (!pyEqVal (.strVal "a") (.intVal 1))) ∧
     (pyComparable (.strVal "a") (.intVal 1) = false →
       generate_callback_lesser (.py (.strVal "x")) (.py (.intVal 1))
           [("x", Value.strVal "a")] = .error .typeError ∧
       generate_callback_lesser_than (.py (.strVal "x")) (.py (.intVal 1))
           [("x", Value.strVal "a")] = .error .typeError ∧
       generate_callback_greater (.py (.strVal "x")) (.py (.intVal 1))
           [("x", Value.strVal "a")] = .error .typeError ∧
       generate_callback_greater_than (.py (.strVal "x")) (.py (.intVal 1))
           [("x", Value.strVal "a")] = .error .typeError) ∧
     (pyComparable (.strVal "a") (.intVal 1) = true →
       (∃ b, generate_callback_lesser (.py (.strVal "x")) (.py (.intVal 1))
           [("x", Value.strVal "a")] = .ok b) ∧
       (∃ b, generate_callback_lesser_than (.py (.strVal "x"))
           (.py (.intVal 1)) [("x", Value.strVal "a")] = .ok b) ∧
       (∃ b, generate_callback_greater (.py (.strVal "x")) (.py (.intVal 1))
           [("x", Value.strVal "a")] = .ok b) ∧
       (∃ b, generate_callback_greater_than (.py (.strVal "x"))
           (.py (.intVal 1)) [("x", Value.strVal "a")] = .ok b))) :=
  ⟨by decide,
   C8_comparison_predicate_totality "x" (.intVal 1) (.strVal "a")
     [("x", Value.strVal "a")] (by decide)⟩

/-- C10 counterexample: with both children satisfied,
`assess_children_nodes` does not return false - the attempted
`CommandBuilder.build_stop_simulation_cmd` lookup raises
AttributeError (the builder is missing from command.py), so the
claimed StopSimulation emission never happens either, and the
status-change handler propagates the error. -/
theorem C10_counterexample_prevention_assess_raises :
    prevention_assess_children_nodes
        ⟨[⟨true, false⟩, ⟨true, false⟩], false, .inf⟩
      = .error .attributeError ∧
    prevention_assess_children_nodes
        ⟨[⟨true, false⟩, ⟨true, false⟩], false, .inf⟩ ≠ .ok false ∧
    prevention_handle_children_status_change
        ⟨[⟨true, false⟩, ⟨true, false⟩], false, .inf⟩
      = .error .attributeError := by
  refine ⟨by decide, by decide, by decide⟩

/-- C10 amended: for a Prevention node whose `satisfied` flag is false,
handling a StatusChange from its two children is a complete no-op (no
state change, no timer cancellation, nothing emitted) when the children
are not both satisfied - the assessment returns false - and raises
AttributeError when both are satisfied, because the StopSimulation
builder the assessment tries to call is missing from CommandBuilder. -/
theorem C10_prevention_status_change_conditional_noop (a p : ChildView)
    (tmo : PyTime) :
    prevention_handle_children_status_change ⟨[a, p], false, tmo⟩ =
      (if a.satisfied && p.satisfied then .error .attributeError
       else .ok (⟨[a, p], false, tmo⟩, [])) := by
  cases hab : (a.satisfied && p.satisfied) <;>
    simp [prevention_handle_children_status_change,
      prevention_assess_children_nodes, hab]

/-
  Arena infrastructure lemmas for the parser proof (C9).
-/

/-- Attribute mutation preserves the arena size. -/
theorem length_modifyAt (a : Arena) (i : Nat) (f : PNode → PNode) :
    (modifyAt a i f).length = a.length := by
  induction a generalizing i with
  | nil => rfl
  | cons n rest ih =>
    cases i with
    | zero => rfl
    | succ k => simp [modifyAt, ih]

/-- Mutating an out-of-range index is a no-op. -/
theorem modifyAt_ge (a : Arena) (i : Nat) (f : PNode → PNode)
    (h : a.length ≤ i) : modifyAt a i f = a := by
  induction a generalizing i with
  | nil => rfl
  | cons n rest ih =>
    cases i with
    | zero => simp at h
    | succ k =>
      simp only [List.length_cons] at h
      simp [modifyAt, ih k (by omega)]

/-- Mutations at distinct indices commute. -/
theorem modifyAt_comm (a : Arena) (i j : Nat) (f g : PNode → PNode)
    (h : i ≠ j) :
    modifyAt (modifyAt a i f) j g = modifyAt (modifyAt a j g) i f := by
  induction a generalizing i j with
  | nil => rfl
  | cons n rest ih =>
    cases i with
    | zero =>
      cases j with
      | zero => exact absurd rfl h
      | succ k => rfl
    | succ k =>
      cases j with
      | zero => rfl
      | succ l => simp [modifyAt, ih k l (by omega)]

/-- Reading below a cons. -/
theorem nodeAt_cons_succ (n : PNode) (rest : Arena) (i : Nat) :
    nodeAt (n :: rest) (i + 1) = nodeAt rest i := rfl

/-- Reading an index other than the mutated one. -/
theorem nodeAt_modifyAt_ne (a : Arena) (i j : Nat) (f : PNode → PNode)
    (h : j ≠ i) : nodeAt (modifyAt a i f) j = nodeAt a j := by
  induction a generalizing i j with
  | nil => rfl
  | cons n rest ih =>
    cases i with
    | zero =>
      cases j with
      | zero => exact absurd rfl h
      | succ l => rfl
    | succ k =>
      cases j with
      | zero => rfl
      | succ l =>
        simp only [modifyAt, nodeAt_cons_succ]
        exact ih k l (by omega)

/-- Reading the mutated index. -/
theorem nodeAt_modifyAt_self (a : Arena) (i : Nat) (f : PNode → PNode)
    (h : i < a.length) : nodeAt (modifyAt a i f) i = f (nodeAt a i) := by
  induction a generalizing i with
  | nil => simp at h
  | cons n rest ih =>
    cases i with
    | zero => rfl
    | succ k =>
      simp only [modifyAt, nodeAt_cons_succ]
      exact ih k (by simpa using Nat.lt_of_succ_lt_succ h)

/-- Reading a pre-existing index of an extended arena. -/
theorem nodeAt_append_lt (a b : Arena) (i : Nat) (h : i < a.length) :
    nodeAt (a ++ b) i = nodeAt a i := by
  induction a generalizing i with
  | nil => simp at h
  | cons n rest ih =>
    cases i with
    | zero => rfl
    | succ k =>
      simp only [List.cons_append, nodeAt_cons_succ]
      exact ih k (by simpa using Nat.lt_of_succ_lt_succ h)

/-- Reading the appended node. -/
theorem nodeAt_append_self (a : Arena) (n : PNode) :
    nodeAt (a ++ [n]) a.length = n := by
  induction a with
  | nil => rfl
  | cons m rest ih => simpa [nodeAt_cons_succ] using ih

/-- `set_father` changes no `children` list. -/
theorem children_set_father (a : Arena) (c p : Nat) (i : Nat) :
    (nodeAt (set_father a c p) i).children = (nodeAt a i).children := by
  by_cases hic : i = c
  · subst hic
    by_cases hlt : i < a.length
    · rw [set_father, nodeAt_modifyAt_self a i _ hlt]
    · rw [set_father, modifyAt_ge a i _ (by omega)]
  · rw [set_father, nodeAt_modifyAt_ne a c i _ hic]

/-- `append_child` changes no `father` field. -/
theorem father_append_child (a : Arena) (p c : Nat) (i : Nat) :
    (nodeAt (append_child a p c) i).father = (nodeAt a i).father := by
  by_cases hip : i = p
  · subst hip
    by_cases hlt : i < a.length
    · rw [append_child, nodeAt_modifyAt_self a i _ hlt]
    · rw [append_child, modifyAt_ge a i _ (by omega)]
  · rw [append_child, nodeAt_modifyAt_ne a p i _ hip]

/-- `set_father` leaves the occurrence counts unchanged. -/
theorem occs_set_father (a : Arena) (c p : Nat) (j : Nat) :
    child_occs (set_father a c p) j = child_occs a j := by
  rw [child_occs, child_occs, set_father, length_modifyAt]
  exact Finset.sum_congr rfl fun i _ => by
    rw [show (nodeAt (modifyAt a c fun n => { n with father := some p }) i).children
        = (nodeAt a i).children from children_set_father a c p i]

/-- Appending a child to an in-range node adds exactly the new
occurrence. -/
theorem occs_append_child (a : Arena) (p c : Nat) (j : Nat)
    (hp : p < a.length) :
    child_occs (append_child a p c) j
      = child_occs a j + (if c = j then 1 else 0) := by
  rw [child_occs, child_occs, append_child, length_modifyAt]
  have hpt : ∀ i ∈ Finset.range a.length,
      (nodeAt (modifyAt a p fun n =>
          { n with children := n.children ++ [c] }) i).children.count j
        = (nodeAt a i).children.count j
            + (if i = p then (if c = j then 1 else 0) else 0) := by
    intro i _
    by_cases hip : i = p
    · subst hip
      rw [nodeAt_modifyAt_self a i _ hp]
      by_cases hcj : c = j
      · subst hcj; simp [List.count_append]
      · simp [List.count_append, List.count_cons, hcj]
    · rw [nodeAt_modifyAt_ne a p i _ hip]
      simp [hip]
  rw [Finset.sum_congr rfl hpt, Finset.sum_add_distrib,
    Finset.sum_ite_eq' (Finset.range a.length) p
      (fun _ => if c = j then 1 else 0)]
  simp [Finset.mem_range.mpr hp]

/-- Extending the arena by one node adds that node's occurrences. -/
theorem occs_append_nodes (a : Arena) (n : PNode) (j : Nat) :
    child_occs (a ++ [n]) j = child_occs a j + n.children.count j := by
  rw [child_occs, child_occs, List.length_append, List.length_singleton,
    Finset.sum_range_succ, nodeAt_append_self]
  congr 1
  exact Finset.sum_congr rfl fun i hi =>
    by rw [nodeAt_append_lt a [n] i (Finset.mem_range.mp hi)]

/-- In a well-formed arena no out-of-range index occurs as a child. -/
theorem occs_zero_of_wf (a : Arena) (j : Nat) (hwf : WFArena a)
    (hj : a.length ≤ j) : child_occs a j = 0 := by
  rw [child_occs]
  refine Finset.sum_eq_zero fun i hi => ?_
  refine List.count_eq_zero.mpr fun hmem => ?_
  have := ((hwf i (Finset.mem_range.mp hi)).1 j hmem).2
  omega

/-- Linking a subtree root to a parent preserves the arena size. -/
theorem length_glue (x : Arena) (p r : Nat) :
    (set_father (append_child x p r) r p).length = x.length := by
  rw [set_father, length_modifyAt, append_child, length_modifyAt]

/-- Linking touches no node other than the parent and the root. -/
theorem nodeAt_glue_other (x : Arena) (p r i : Nat) (hip : i ≠ p)
    (hir : i ≠ r) :
    nodeAt (set_father (append_child x p r) r p) i = nodeAt x i := by
  rw [set_father, nodeAt_modifyAt_ne _ r i _ hir, append_child,
    nodeAt_modifyAt_ne x p i _ hip]

/-- The parent gains exactly the root as a new last child. -/
theorem nodeAt_glue_parent (x : Arena) (p r : Nat) (hp : p < x.length)
    (hpr : p ≠ r) :
    nodeAt (set_father (append_child x p r) r p) p
      = { nodeAt x p with children := (nodeAt x p).children ++ [r] } := by
  rw [set_father, nodeAt_modifyAt_ne _ r p _ hpr, append_child,
    nodeAt_modifyAt_self x p _ hp]

/-- The root gains exactly the parent as its father. -/
theorem nodeAt_glue_root (x : Arena) (p r : Nat) (hr : r < x.length)
    (hpr : p ≠ r) :
    nodeAt (set_father (append_child x p r) r p) r
      = { nodeAt x r with father := some p } := by
  rw [set_father,
    nodeAt_modifyAt_self _ r _ (by rw [append_child, length_modifyAt]; exact hr),
    append_child, nodeAt_modifyAt_ne x p r _ (Ne.symm hpr)]

/-- Linking changes the children of no node but the parent. -/
theorem children_glue_ne (x : Arena) (p r i : Nat) (hip : i ≠ p) :
    (nodeAt (set_father (append_child x p r) r p) i).children
      = (nodeAt x i).children := by
  rw [children_set_father, append_child, nodeAt_modifyAt_ne x p i _ hip]

/-- Linking adds exactly one occurrence, of the root. -/
theorem occs_glue (x : Arena) (p r j : Nat) (hp : p < x.length) :
    child_occs (set_father (append_child x p r) r p) j
      = child_occs x j + (if r = j then 1 else 0) := by
  rw [occs_set_father, occs_append_child x p r j hp]

/-- Composition step of the extraction invariant for a disjunction: a
fresh Disjoint node is allocated, the two sub-events are extracted one
after the other, and each subtree root is linked under the Disjoint
node. -/
theorem extract_disj_compose (a a1 a2 : Arena) (c1 c2 : Nat)
    (H1 : ExtractOk (a ++ [⟨.disjointNode, none, []⟩]) a1 c1)
    (H2 : ExtractOk (set_father (append_child a1 a.length c1) c1 a.length)
        a2 c2) :
    ExtractOk a (set_father (append_child a2 a.length c2) c2 a.length)
      a.length := by
  have h_a0len : (a ++ [(⟨.disjointNode, none, []⟩ : PNode)]).length
      = a.length + 1 := by simp
  have hc1 : c1 = a.length + 1 := by rw [H1.root_eq, h_a0len]
  have h_b1len : (set_father (append_child a1 a.length c1) c1 a.length).length
      = a1.length := length_glue a1 a.length c1
  have hc2 : c2 = a1.length := by rw [H2.root_eq, h_b1len]
  have hn1 : a.length + 1 < a1.length := by
    have := H1.len_lt; rw [h_a0len] at this; exact this
  have hn2 : a1.length < a2.length := by
    have := H2.len_lt; rw [h_b1len] at this; exact this
  have hd_lt_a1 : a.length < a1.length := by omega
  have hc1_lt_a1 : c1 < a1.length := by omega
  have hd_ne_c1 : a.length ≠ c1 := by omega
  have hd_lt_a2 : a.length < a2.length := by omega
  have hc2_lt_a2 : c2 < a2.length := by omega
  have hd_ne_c2 : a.length ≠ c2 := by omega
  have old01 : ∀ i, i < a.length → nodeAt a1 i = nodeAt a i := by
    intro i hi
    rw [H1.old_nodes i (by rw [h_a0len]; omega), nodeAt_append_lt a _ i hi]
  have old2 : ∀ i, i < a1.length → nodeAt a2 i
      = nodeAt (set_father (append_child a1 a.length c1) c1 a.length) i := by
    intro i hi
    exact H2.old_nodes i (by rw [h_b1len]; exact hi)
  have hda1 : nodeAt a1 a.length = ⟨.disjointNode, none, []⟩ := by
    rw [H1.old_nodes a.length (by rw [h_a0len]; omega), nodeAt_append_self]
  have hdb1 : nodeAt (set_father (append_child a1 a.length c1) c1 a.length)
      a.length = ⟨.disjointNode, none, [c1]⟩ := by
    rw [nodeAt_glue_parent a1 a.length c1 hd_lt_a1 hd_ne_c1, hda1]
    rfl
  have hda2 : nodeAt a2 a.length = ⟨.disjointNode, none, [c1]⟩ := by
    rw [old2 a.length hd_lt_a1, hdb1]
  have hdb2 : nodeAt (set_father (append_child a2 a.length c2) c2 a.length)
      a.length = ⟨.disjointNode, none, [c1, c2]⟩ := by
    rw [nodeAt_glue_parent a2 a.length c2 hd_lt_a2 hd_ne_c2, hda2]
    rfl
  refine ⟨rfl, ?_, ?_, ?_, ?_, ?_, ?_⟩
  · rw [length_glue]; omega
  · intro i hi
    rw [nodeAt_glue_other a2 a.length c2 i (by omega) (by omega),
      old2 i (by omega),
      nodeAt_glue_other a1 a.length c1 i (by omega) (by omega), old01 i hi]
  · rw [hdb2]
  · intro j hj1 hj2 hj3
    rw [length_glue] at hj2
    rcases Nat.lt_or_ge j a1.length with hjlt | hjge
    · by_cases hjc1 : j = c1
      · rw [hjc1]
        refine ⟨a.length, ?_, Nat.le_refl _, by rw [length_glue]; omega, ?_⟩
        · rw [nodeAt_glue_other a2 a.length c2 c1 (by omega) (by omega),
            old2 c1 hc1_lt_a1,
            nodeAt_glue_root a1 a.length c1 hc1_lt_a1 hd_ne_c1]
        · rw [hdb2]
          have hne : c2 ≠ c1 := by omega
          simp [List.count_cons, hne]
      · obtain ⟨p1, hf, hp1l, hp1u, hcount⟩ :=
          H1.new_father j (by rw [h_a0len]; omega) hjlt hjc1
        rw [h_a0len] at hp1l
        refine ⟨p1, ?_, by omega, by rw [length_glue]; omega, ?_⟩
        · rw [nodeAt_glue_other a2 a.length c2 j (by omega) (by omega),
            old2 j hjlt,
            nodeAt_glue_other a1 a.length c1 j (by omega) hjc1]
          exact hf
        · rw [children_glue_ne a2 a.length c2 p1 (by omega),
            old2 p1 (by omega),
            children_glue_ne a1 a.length c1 p1 (by omega)]
          exact hcount
    · by_cases hjc2 : j = c2
      · rw [hjc2]
        refine ⟨a.length, ?_, Nat.le_refl _, by rw [length_glue]; omega, ?_⟩
        · rw [nodeAt_glue_root a2 a.length c2 hc2_lt_a2 hd_ne_c2]
        · rw [hdb2]
          have hne : c1 ≠ c2 := by omega
          simp [List.count_cons, hne]
      · obtain ⟨p2, hf, hp2l, hp2u, hcount⟩ :=
          H2.new_father j (by rw [h_b1len]; omega) hj2 hjc2
        rw [h_b1len] at hp2l
        refine ⟨p2, ?_, by omega, by rw [length_glue]; omega, ?_⟩
        · rw [nodeAt_glue_other a2 a.length c2 j (by omega) hjc2]
          exact hf
        · rw [children_glue_ne a2 a.length c2 p2 (by omega)]
          exact hcount
  · intro i hi1 hi2 c hc
    rw [length_glue] at hi2 ⊢
    by_cases hid : i = a.length
    · subst hid
      rw [hdb2] at hc
      simp only [List.mem_cons, List.not_mem_nil, or_false] at hc
      rcases hc with hc | hc <;> subst hc <;> omega
    · rw [show (nodeAt (set_father (append_child a2 a.length c2) c2 a.length)
          i).children = (nodeAt a2 i).children from
          children_glue_ne a2 a.length c2 i hid] at hc
      rcases Nat.lt_or_ge i a1.length with hilt | hige
      · rw [old2 i hilt,
          children_glue_ne a1 a.length c1 i hid] at hc
        have := H1.new_edges i (by rw [h_a0len]; omega) hilt c hc
        omega
      · have := H2.new_edges i (by rw [h_b1len]; omega) hi2 c hc
        omega
  · intro j
    rw [occs_glue a2 a.length c2 j hd_lt_a2, H2.occs j,
      occs_glue a1 a.length c1 j hd_lt_a1, H1.occs j,
      occs_append_nodes a _ j, h_a0len, h_b1len, length_glue]
    simp only [List.count_nil]
    split_ifs <;> omega

/-- The extraction invariant holds for every event and every starting
arena. -/
theorem extract_requirement_node_ok (e : HplEvent) : ∀ a : Arena,
    ExtractOk a (extract_requirement_node a e).1
      (extract_requirement_node a e).2 := by
  induction e with
  | simple topic msgType =>
    intro a
    show ExtractOk a (a ++ [⟨.simpleNode, none, []⟩]) a.length
    have hlen : (a ++ [(⟨.simpleNode, none, []⟩ : PNode)]).length
        = a.length + 1 := by simp
    refine ⟨rfl, by omega, ?_, ?_, ?_, ?_, ?_⟩
    · intro i hi; exact nodeAt_append_lt a _ i hi
    · rw [nodeAt_append_self]
    · intro j hj1 hj2 hj3
      rw [hlen] at hj2
      omega
    · intro i hi1 hi2 c hc
      rw [hlen] at hi2
      have : i = a.length := by omega
      subst this
      rw [nodeAt_append_self] at hc
      simp at hc
    · intro j
      rw [occs_append_nodes, hlen]
      have : ¬(a.length ≤ j ∧ j < a.length + 1 ∧ j ≠ a.length) := by omega
      rw [if_neg this]
      simp
  | disj e1 e2 ih1 ih2 =>
    intro a
    exact extract_disj_compose a _ _ _ _ (ih1 _) (ih2 _)

/-- Attaching an extracted subtree root under an in-range node of a
well-formed arena keeps the arena well-formed. -/
theorem wf_attach (a a' : Arena) (r p : Nat) (hwf : WFArena a)
    (hp : p < a.length) (hex : ExtractOk a a' r) :
    WFArena (set_father (append_child a' p r) r p) := by
  have hr_eq : r = a.length := hex.root_eq
  have hlen : a.length < a'.length := hex.len_lt
  have hglen : (set_father (append_child a' p r) r p).length = a'.length :=
    length_glue a' p r
  have hp' : p < a'.length := by omega
  have hr' : r < a'.length := by omega
  have hpr : p ≠ r := by omega
  have hoccs : ∀ j, child_occs (set_father (append_child a' p r) r p) j
      = child_occs a j
        + (if a.length ≤ j ∧ j < a'.length ∧ j ≠ r then 1 else 0)
        + (if r = j then 1 else 0) := by
    intro j
    rw [occs_glue a' p r j hp', hex.occs j]
  have hbp : nodeAt (set_father (append_child a' p r) r p) p
      = { nodeAt a p with children := (nodeAt a p).children ++ [r] } := by
    rw [nodeAt_glue_parent a' p r hp' hpr, hex.old_nodes p hp]
  have hbr : nodeAt (set_father (append_child a' p r) r p) r
      = { nodeAt a' r with father := some p } :=
    nodeAt_glue_root a' p r hr' hpr
  have hbold : ∀ i, i < a.length → i ≠ p →
      nodeAt (set_father (append_child a' p r) r p) i = nodeAt a i := by
    intro i hi h1
    rw [nodeAt_glue_other a' p r i h1 (by omega), hex.old_nodes i hi]
  have hcount_p_r : (nodeAt a p).children.count r = 0 :=
    List.count_eq_zero.mpr fun hmem => by
      have := ((hwf p hp).1 r hmem).2; omega
  intro j hj
  rw [hglen] at hj
  by_cases hjr : j = r
  · rw [hjr]
    constructor
    · intro c hc
      rw [hbr] at hc
      have := hex.new_edges r (by omega) hr' c hc
      rw [hglen]
      exact ⟨this.1, this.2⟩
    · rw [hbr]
      refine ⟨by rw [hglen]; omega, ?_, ?_⟩
      · rw [hbp]
        simp only [List.count_append, hcount_p_r]
        simp [List.count_cons]
      · rw [hoccs r, occs_zero_of_wf a r hwf (by omega)]
        simp
  · by_cases hjl : j < a.length
    · obtain ⟨hedges, hfat⟩ := hwf j hjl
      have hchildren : (nodeAt (set_father (append_child a' p r) r p)
          j).children
          = (nodeAt a j).children ++ (if j = p then [r] else []) := by
        by_cases hjp : j = p
        · rw [hjp, hbp, if_pos rfl]
        · rw [hbold j hjl hjp, if_neg hjp, List.append_nil]
      have hfather : (nodeAt (set_father (append_child a' p r) r p)
          j).father = (nodeAt a j).father := by
        by_cases hjp : j = p
        · rw [hjp, hbp]
        · rw [hbold j hjl hjp]
      constructor
      · intro c hc
        rw [hchildren] at hc
        rw [List.mem_append] at hc
        rw [hglen]
        rcases hc with hc | hc
        · have := hedges c hc; omega
        · by_cases hjp : j = p
          · rw [if_pos hjp] at hc
            simp only [List.mem_singleton] at hc
            omega
          · rw [if_neg hjp] at hc
            simp at hc
      · rw [hfather]
        rcases hof : (nodeAt a j).father with _ | q
        · simp only [hof] at hfat
          rw [hoccs j, hfat, if_neg (by omega), if_neg (by omega)]
        · simp only [hof] at hfat
          obtain ⟨hq1, hq2, hq3⟩ := hfat
          refine ⟨by rw [hglen]; omega, ?_, ?_⟩
          · have hqchildren : (nodeAt (set_father (append_child a' p r) r p)
                q).children
                = (nodeAt a q).children ++ (if q = p then [r] else []) := by
              by_cases hqp : q = p
              · rw [hqp, hbp, if_pos rfl]
              · rw [hbold q hq1 hqp, if_neg hqp, List.append_nil]
            rw [hqchildren, List.count_append, hq2]
            by_cases hqp : q = p
            · rw [if_pos hqp]
              simp [List.count_cons, show ¬(r = j) by omega]
            · rw [if_neg hqp]
              simp
          · rw [hoccs j, hq3, if_neg (by omega), if_neg (by omega)]
    · have hj1 : a.length ≤ j := by omega
      have hjp : j ≠ p := by omega
      have hbj : nodeAt (set_father (append_child a' p r) r p) j
          = nodeAt a' j := nodeAt_glue_other a' p r j hjp hjr
      obtain ⟨pj, hf, hpj1, hpj2, hcnt⟩ := hex.new_father j hj1 hj hjr
      constructor
      · intro c hc
        rw [hbj] at hc
        have := hex.new_edges j hj1 hj c hc
        rw [hglen]
        exact ⟨this.1, this.2⟩
      · rw [hbj, hf]
        refine ⟨by rw [hglen]; omega, ?_, ?_⟩
        · rw [children_glue_ne a' p r pj (by omega)]
          exact hcnt
        · rw [hoccs j, occs_zero_of_wf a j hwf hj1, if_pos ⟨hj1, hj, hjr⟩,
            if_neg (by omega)]

/-- Linking every extracted child subtree under an in-range parent of a
well-formed arena keeps the arena well-formed. -/
theorem link_pattern_children_wf (es : List HplEvent) :
    ∀ (a : Arena) (p : Nat), WFArena a → p < a.length →
      WFArena (link_pattern_children a p es) := by
  induction es with
  | nil => intro a p hwf _; exact hwf
  | cons e es ih =>
    intro a p hwf hp
    show WFArena (link_pattern_children
      (append_child (set_father (extract_requirement_node a e).1
        (extract_requirement_node a e).2 p) p
        (extract_requirement_node a e).2) p es)
    have hex := extract_requirement_node_ok e a
    have hne : (extract_requirement_node a e).2 ≠ p := by
      have := hex.root_eq; omega
    have hcomm : append_child (set_father (extract_requirement_node a e).1
          (extract_requirement_node a e).2 p) p
          (extract_requirement_node a e).2
        = set_father (append_child (extract_requirement_node a e).1 p
            (extract_requirement_node a e).2)
            (extract_requirement_node a e).2 p := by
      simp only [set_father, append_child]
      exact modifyAt_comm _ _ _ _ _ hne
    rw [hcomm]
    refine ih _ p (wf_attach a _ _ p hwf hp hex) ?_
    rw [length_glue]
    have := hex.len_lt
    omega

/-- The one-node arena holding a freshly allocated pattern node is
well-formed. -/
theorem wf_singleton_pattern (k : PatternKind) :
    WFArena [⟨.patternNode k, none, []⟩] := by
  intro j hj
  simp only [List.length_singleton] at hj
  have hj0 : j = 0 := by omega
  subst hj0
  constructor
  · intro c hc
    simp [nodeAt] at hc
  · simp [nodeAt, child_occs]

/-- C9 (confirmed): every tree produced by the requirement parser is
well-formed - in the arena built by `visit_hpl_pattern`, each node that
carries a `father` back-reference is listed exactly once in that
father's `children` and in no other node's `children`, a node without a
father appears in no `children` list, and every parent/child edge goes
from a lower to a strictly higher allocation index, so the parent/child
relation is acyclic (allocation order is a topological order). -/
theorem C9_parser_tree_wellformed (pat : HplPattern) :
    WFArena (visit_hpl_pattern pat) :=
  link_pattern_children_wf pat.events
    [⟨.patternNode pat.kind, none, []⟩] 0 (wf_singleton_pattern pat.kind)
    (by simp)
